import Mathlib

/-!
Shallow embedding of the BIRD route-import coordinator
(`modules/route/coordinator/service.go`).

Pure Go values (errors, config, registry map) are translated to Lean
datatypes; the effectful parts (gRPC calls, stream sends, sleeps) are
modelled by explicit event traces, with the outcomes of external RPCs
supplied as oracles.  Mutex-protected critical sections are modelled as
single atomic steps on the registry state, which is the standard shallow
treatment of a lock whose critical section performs no blocking work.
-/

/-- Go `error` values relevant to the coordinator:
`context.Canceled`, `context.DeadlineExceeded`, the package-level
sentinel `errStreamClosed`, opaque failures coming from gRPC
(`sendFailed`), errors wrapped by `fmt.Errorf("...: %w", err)`
(`wrapped`), and `errors.Join` results (`joined`). -/
inductive GoError where
  | canceled
  | deadlineExceeded
  | streamClosed
  | sendFailed (msg : String)
  | wrapped (msg : String) (inner : GoError)
  | joined (errs : List GoError)

mutual
/-- Structural equality test on errors (the `==` used by `errors.Is`). -/
def goErrorBeq : GoError → GoError → Bool
  | .canceled, .canceled => true
  | .deadlineExceeded, .deadlineExceeded => true
  | .streamClosed, .streamClosed => true
  | .sendFailed m, .sendFailed m' => m == m'
  | .wrapped m i, .wrapped m' i' => (m == m') && goErrorBeq i i'
  | .joined es, .joined es' => goErrorListBeq es es'
  | _, _ => false

/-- Structural equality test on lists of errors. -/
def goErrorListBeq : List GoError → List GoError → Bool
  | [], [] => true
  | e :: es, e' :: es' => goErrorBeq e e' && goErrorListBeq es es'
  | _, _ => false
end

instance : BEq GoError := ⟨goErrorBeq⟩

mutual
theorem goErrorBeq_refl : ∀ a : GoError, goErrorBeq a a = true
  | .canceled => rfl
  | .deadlineExceeded => rfl
  | .streamClosed => rfl
  | .sendFailed m => by simp [goErrorBeq]
  | .wrapped m i => by simp [goErrorBeq, goErrorBeq_refl i]
  | .joined es => by simp [goErrorBeq, goErrorListBeq_refl es]

theorem goErrorListBeq_refl : ∀ es : List GoError, goErrorListBeq es es = true
  | [] => rfl
  | e :: es => by simp [goErrorListBeq, goErrorBeq_refl e, goErrorListBeq_refl es]
end

mutual
/-- Go's `errors.Is(e, target)`: equality, unwrap chains of `%w`,
and traversal of `errors.Join` members. -/
def errorsIs : GoError → GoError → Bool
  | .wrapped m inner, t => (GoError.wrapped m inner == t) || errorsIs inner t
  | .joined es, t => (GoError.joined es == t) || errorsIsList es t
  | e, t => e == t

/-- `errors.Is` over the members of a joined error. -/
def errorsIsList : List GoError → GoError → Bool
  | [], _ => false
  | e :: es, t => errorsIs e t || errorsIsList es t
end

/-- Go's `errors.Join`: drops `nil` members; returns `nil` when no
member is non-nil, otherwise a single joined error. -/
def goJoin (errs : List (Option GoError)) : Option GoError :=
  match errs.filterMap id with
  | [] => none
  | es => some (.joined es)

theorem errorsIs_self (e : GoError) : errorsIs e e = true := by
  cases e <;>
    simp [errorsIs, BEq.beq, goErrorBeq, goErrorBeq_refl, goErrorListBeq_refl]

theorem errorsIsList_of_mem {es : List GoError} {x t : GoError}
    (hx : x ∈ es) (h : errorsIs x t = true) : errorsIsList es t = true := by
  induction es with
  | nil => cases hx
  | cons a as ih =>
    rcases List.mem_cons.mp hx with rfl | hmem
    · simp [errorsIsList, h]
    · simp [errorsIsList, ih hmem]

/-! ## Registry (`m.imports`, guarded by `m.importsMu`) -/

/-- The `instanceKey` struct: `(config-name, dataplane-instance)`. -/
structure InstanceKey where
  name : String
  dataplaneInstance : Nat
deriving DecidableEq

/-- The registry map `m.imports`.  Holders are identified by `Nat`
identities; a Go map is modelled as an association list in which the
install operation (`m.imports[key] = holder`) replaces the entry for an
existing key in place. -/
abbrev Registry := List (InstanceKey × Nat)

/-- Go map read `m.imports[key]`. -/
def regGet : Registry → InstanceKey → Option Nat
  | [], _ => none
  | (k', h) :: rest, k => if k' = k then some h else regGet rest k

/-- Go map write `m.imports[key] = holder`. -/
def regSet : Registry → InstanceKey → Nat → Registry
  | [], k, h => [(k, h)]
  | (k', h') :: rest, k, h =>
    if k' = k then (k, h) :: rest else (k', h') :: regSet rest k h

/-- All keys present in the registry. -/
def keysOf (reg : Registry) : List InstanceKey := reg.map Prod.fst

/-- All holders stored under a given key (a well-formed Go map has at
most one, which is what claim C1 asserts). -/
def holdersUnder (reg : Registry) (k : InstanceKey) : List Nat :=
  (reg.filter fun p => decide (p.1 = k)).map Prod.snd

/-- Observable side effects on holders performed by registry
operations and by the supervisor's terminal cleanup. -/
inductive RegEvent where
  | cancelHolder (h : Nat)
  | closeConn (h : Nat)
  | installEv (k : InstanceKey) (h : Nat)
deriving DecidableEq

/-- Count of occurrences of one event in a trace. -/
def countEv (x : RegEvent) : List RegEvent → Nat
  | [] => 0
  | e :: rest => (if e = x then 1 else 0) + countEv x rest

/-- The registry part of `processBirdImport` (lines 196–216 of
`service.go`): under the mutex, if the key is present the predecessor's
`cancel` is called and its connection closed, then the new holder is
written under the key.  The whole critical section is one atomic step;
the returned trace lists its effects in program order. -/
def installHolder (reg : Registry) (k : InstanceKey) (h : Nat) :
    Registry × List RegEvent :=
  match regGet reg k with
  | some old =>
    (regSet reg k h, [.cancelHolder old, .closeConn old, .installEv k h])
  | none => (regSet reg k h, [.installEv k h])

/-- A sequence of installs (successful `SetupConfig` calls reaching
`processBirdImport`) applied from a starting registry, with the
concatenated event trace. -/
def runInstallsFrom (reg : Registry) :
    List (InstanceKey × Nat) → Registry × List RegEvent
  | [] => (reg, [])
  | (k, h) :: rest =>
    ((runInstallsFrom (installHolder reg k h).1 rest).1,
     (installHolder reg k h).2 ++ (runInstallsFrom (installHolder reg k h).1 rest).2)

/-- A sequence of installs applied from the initial empty registry
(`NewModuleService` builds `imports` as an empty map). -/
def runInstalls (seq : List (InstanceKey × Nat)) : Registry × List RegEvent :=
  runInstallsFrom [] seq

/-- The holder most recently installed for a key in a sequence of
installs, if any. -/
def lastInstalled : List (InstanceKey × Nat) → InstanceKey → Option Nat
  | [], _ => none
  | (k, h) :: rest, K =>
    match lastInstalled rest K with
    | some h' => some h'
    | none => if k = K then some h else none

/-- The deferred cleanup block of `runBirdImportLoop` (lines 231–235):
cancel the per-import context, then close the gRPC connection.  It does
not touch the registry. -/
def supervisorCleanupEvents (h : Nat) : List RegEvent :=
  [.cancelHolder h, .closeConn h]

/-- System-level operations that touch holders: a `SetupConfig` install
and a supervisor termination. -/
inductive SysOp where
  | setup (k : InstanceKey) (h : Nat)
  | supExit (h : Nat)
deriving DecidableEq

/-- One system step on the registry.  `supExit` is the supervisor's
terminal cleanup: it emits the cleanup events and leaves the registry
untouched (`runBirdImportLoop` never reads or writes `m.imports`;
nothing in the file deletes from the map). -/
def sysStep (reg : Registry) : SysOp → Registry × List RegEvent
  | .setup k h => installHolder reg k h
  | .supExit h => (reg, supervisorCleanupEvents h)

/-! ## Registry lemmas -/

/-- Key list of a cons registry. -/
theorem keysOf_cons (p : InstanceKey × Nat) (rest : Registry) :
    keysOf (p :: rest) = p.1 :: keysOf rest := rfl

/-- Holders under a key in a cons registry. -/
theorem holdersUnder_cons (p : InstanceKey × Nat) (rest : Registry)
    (k : InstanceKey) :
    holdersUnder (p :: rest) k =
      if p.1 = k then p.2 :: holdersUnder rest k else holdersUnder rest k := by
  by_cases h : p.1 = k <;> simp [holdersUnder, List.filter_cons, h]

/-- Well-formedness of the registry as a Go map: keys occur once. -/
def keysNodup (reg : Registry) : Prop := (keysOf reg).Nodup

theorem holdersUnder_of_not_mem {reg : Registry} {k : InstanceKey}
    (hk : k ∉ keysOf reg) : holdersUnder reg k = [] := by
  induction reg with
  | nil => rfl
  | cons p rest ih =>
    rw [keysOf_cons, List.mem_cons] at hk
    push_neg at hk
    rw [holdersUnder_cons, if_neg (fun h => hk.1 h.symm), ih hk.2]

theorem holdersUnder_regSet {reg : Registry} (hnd : keysNodup reg)
    (k : InstanceKey) (h : Nat) (K : InstanceKey) :
    holdersUnder (regSet reg k h) K =
      if K = k then [h] else holdersUnder reg K := by
  induction reg with
  | nil =>
    rcases eq_or_ne K k with rfl | hK
    · simp [regSet, holdersUnder_cons, holdersUnder]
    · simp [regSet, holdersUnder_cons, holdersUnder, hK, Ne.symm hK]
  | cons p rest ih =>
    obtain ⟨k', h'⟩ := p
    rw [keysNodup, keysOf_cons, List.nodup_cons] at hnd
    obtain ⟨hout, hrest⟩ := hnd
    simp only at hout
    rcases eq_or_ne k' k with rfl | hpk
    · rw [regSet, if_pos rfl]
      rcases eq_or_ne K k' with rfl | hK
      · simp [holdersUnder_cons, holdersUnder_of_not_mem hout]
      · simp [holdersUnder_cons, hK, Ne.symm hK]
    · rw [regSet, if_neg hpk, holdersUnder_cons, holdersUnder_cons, ih hrest]
      simp only
      rcases eq_or_ne k' K with rfl | hpK
      · simp [hpk]
      · simp [hpK]

theorem mem_keysOf_regSet {reg : Registry} {K : InstanceKey}
    (k : InstanceKey) (h : Nat) (hK : K ∈ keysOf reg) :
    K ∈ keysOf (regSet reg k h) := by
  induction reg with
  | nil => cases hK
  | cons p rest ih =>
    obtain ⟨k', h'⟩ := p
    rw [keysOf_cons, List.mem_cons] at hK
    simp only at hK
    rcases eq_or_ne k' k with rfl | hpk
    · rw [regSet, if_pos rfl, keysOf_cons, List.mem_cons]
      rcases hK with rfl | hm
      · exact Or.inl rfl
      · exact Or.inr hm
    · rw [regSet, if_neg hpk, keysOf_cons, List.mem_cons]
      rcases hK with rfl | hm
      · exact Or.inl rfl
      · exact Or.inr (ih hm)

theorem keysOf_regSet_sub {reg : Registry} {x k : InstanceKey} {h : Nat}
    (hx : x ∈ keysOf (regSet reg k h)) : x = k ∨ x ∈ keysOf reg := by
  induction reg with
  | nil =>
    rw [regSet, keysOf_cons, List.mem_cons] at hx
    rcases hx with rfl | hm
    · exact Or.inl rfl
    · cases hm
  | cons p rest ih =>
    obtain ⟨k', h'⟩ := p
    rcases eq_or_ne k' k with rfl | hpk
    · rw [regSet, if_pos rfl, keysOf_cons, List.mem_cons] at hx
      rcases hx with rfl | hm
      · exact Or.inl rfl
      · exact Or.inr (by rw [keysOf_cons, List.mem_cons]; exact Or.inr hm)
    · rw [regSet, if_neg hpk, keysOf_cons, List.mem_cons] at hx
      rcases hx with rfl | hm
      · exact Or.inr (by rw [keysOf_cons, List.mem_cons]; exact Or.inl rfl)
      · rcases ih hm with rfl | hm'
        · exact Or.inl rfl
        · exact Or.inr (by rw [keysOf_cons, List.mem_cons]; exact Or.inr hm')

theorem keysNodup_regSet {reg : Registry} (hnd : keysNodup reg)
    (k : InstanceKey) (h : Nat) : keysNodup (regSet reg k h) := by
  induction reg with
  | nil => simp [regSet, keysNodup, keysOf]
  | cons p rest ih =>
    obtain ⟨k', h'⟩ := p
    rw [keysNodup, keysOf_cons, List.nodup_cons] at hnd
    simp only at hnd
    obtain ⟨hout, hrest⟩ := hnd
    rcases eq_or_ne k' k with rfl | hpk
    · rw [regSet, if_pos rfl, keysNodup, keysOf_cons, List.nodup_cons]
      exact ⟨hout, hrest⟩
    · rw [regSet, if_neg hpk, keysNodup, keysOf_cons, List.nodup_cons]
      refine ⟨fun hmem => ?_, ih hrest⟩
      rcases keysOf_regSet_sub hmem with rfl | hm
      · exact hpk rfl
      · exact hout hm

theorem regGet_regSet_ne {reg : Registry} {K k : InstanceKey} (h : Nat)
    (hne : K ≠ k) : regGet (regSet reg k h) K = regGet reg K := by
  induction reg with
  | nil => simp [regSet, regGet, Ne.symm hne]
  | cons p rest ih =>
    obtain ⟨k', h'⟩ := p
    rcases eq_or_ne k' k with rfl | hpk
    · simp [regSet, regGet, Ne.symm hne]
    · rcases eq_or_ne k' K with rfl | hpK
      · simp [regSet, regGet, hpk]
      · simp [regSet, regGet, hpk, hpK, ih]

/-- The registry state of `installHolder` is a plain map write in both
branches. -/
theorem installHolder_fst (reg : Registry) (k : InstanceKey) (h : Nat) :
    (installHolder reg k h).1 = regSet reg k h := by
  unfold installHolder
  cases regGet reg k <;> rfl

/-- Registry state after a sequence of installs: the entry for a key is
the most recently installed holder, and it is the only entry. -/
theorem runInstallsFrom_holders (seq : List (InstanceKey × Nat)) :
    ∀ (reg : Registry), keysNodup reg → ∀ K,
    holdersUnder (runInstallsFrom reg seq).1 K =
      (lastInstalled seq K).elim (holdersUnder reg K) (fun h => [h]) := by
  induction seq with
  | nil => intro reg _ K; rfl
  | cons p rest ih =>
    intro reg hnd K
    obtain ⟨k, h⟩ := p
    rw [runInstallsFrom]
    have hnd' : keysNodup (regSet reg k h) := keysNodup_regSet hnd k h
    rw [installHolder_fst, ih (regSet reg k h) hnd' K, lastInstalled]
    cases hcase : lastInstalled rest K with
    | some h' => rfl
    | none =>
      simp only [Option.elim]
      rw [holdersUnder_regSet hnd k h K]
      rcases eq_or_ne K k with rfl | hK
      · rw [if_pos rfl, if_pos rfl]
      · rw [if_neg hK, if_neg (fun hh : k = K => hK hh.symm)]

/-- C1: For every sequence of `SetupConfig` installs and every key ever
installed, the registry holds exactly one holder under that key — the
most recently installed one; and when the key is already present, the
replacement critical section (one atomic step under `importsMu`) cancels
the predecessor and closes its connection, in that order, before
writing the new holder under the key. -/
theorem claim_C1_registry_replacement :
    (∀ (seq : List (InstanceKey × Nat)) (K : InstanceKey),
      holdersUnder (runInstalls seq).1 K =
        (lastInstalled seq K).elim [] (fun h => [h]))
    ∧ (∀ (reg : Registry) (k : InstanceKey) (h old : Nat),
        regGet reg k = some old →
        installHolder reg k h =
          (regSet reg k h,
           [.cancelHolder old, .closeConn old, .installEv k h])) := by
  constructor
  · intro seq K
    have := runInstallsFrom_holders seq [] (by simp [keysNodup, keysOf]) K
    rw [runInstalls, this]
    cases lastInstalled seq K <;> rfl
  · intro reg k h old hget
    rw [installHolder, hget]

/-- Witness for C1 at a concrete registry containing the key. -/
theorem claim_C1_witness :
    installHolder [(InstanceKey.mk "a" 1, 5)] (InstanceKey.mk "a" 1) 7 =
      (regSet [(InstanceKey.mk "a" 1, 5)] (InstanceKey.mk "a" 1) 7,
       [.cancelHolder 5, .closeConn 5, .installEv (InstanceKey.mk "a" 1) 7]) :=
  claim_C1_registry_replacement.2 [(InstanceKey.mk "a" 1, 5)]
    (InstanceKey.mk "a" 1) 7 5 (by decide)

/-- The key of the C5 scenario. -/
def c5Key : InstanceKey := InstanceKey.mk "cfg" 1

/-- Life of holder `0`: installed under `c5Key`, replaced by holder `1`
(the replacement branch of `processBirdImport` calls the predecessor's
`cancel`), after which holder `0`'s supervisor observes its cancelled
context, exits `runBirdImportLoop`, and the deferred cleanup calls
`holder.cancel()` a second time. -/
def c5Trace : List RegEvent :=
  (runInstalls [(c5Key, 0), (c5Key, 1)]).2 ++ supervisorCleanupEvents 0

/-- C5 counterexample: over the whole lifetime of holder `0`, `cancel`
is invoked twice — once by the replacement path and once by the
supervisor's terminal cleanup — refuting "at most once over the
holder's lifetime, across all teardown paths". -/
theorem claim_C5_counterexample :
    ¬ countEv (.cancelHolder 0) c5Trace ≤ 1 := by decide

/-- C5 amended: `cancel` is invoked at most once per distinct teardown
path — the replacement critical section invokes it at most once (and
exactly once on the predecessor when the key is present), and the
supervisor's terminal cleanup invokes it exactly once.  (In Go the
`context.CancelFunc` is idempotent, so the double invocation across
paths is harmless.) -/
theorem claim_C5_cancel_once_per_path :
    (∀ (reg : Registry) (k : InstanceKey) (h x : Nat),
      countEv (.cancelHolder x) (installHolder reg k h).2 ≤ 1)
    ∧ (∀ x : Nat, countEv (.cancelHolder x) (supervisorCleanupEvents x) = 1)
    ∧ (∀ (reg : Registry) (k : InstanceKey) (h old : Nat),
        regGet reg k = some old →
        countEv (.cancelHolder old) (installHolder reg k h).2 = 1) := by
  refine ⟨?_, ?_, ?_⟩
  · intro reg k h x
    unfold installHolder
    cases regGet reg k with
    | none => simp [countEv]
    | some old =>
      rcases eq_or_ne old x with rfl | hx
      · simp [countEv]
      · simp [countEv, hx]
  · intro x
    simp [supervisorCleanupEvents, countEv]
  · intro reg k h old hget
    rw [installHolder, hget]
    simp [countEv]

/-- Witness for C5 (amended) at a concrete registry with the key
present. -/
theorem claim_C5_witness :
    countEv (.cancelHolder 5)
      (installHolder [(InstanceKey.mk "a" 1, 5)] (InstanceKey.mk "a" 1) 7).2 = 1 :=
  claim_C5_cancel_once_per_path.2.2 [(InstanceKey.mk "a" 1, 5)]
    (InstanceKey.mk "a" 1) 7 5 (by decide)

/-- C9: supervisor termination emits exactly the terminal cleanup
(cancel the per-import context, close the connection) and leaves the
registry map untouched; no system step ever deletes a key, and an
install only overwrites the entry of its own key, leaving every other
key's entry unchanged. -/
theorem claim_C9_termination_frame :
    (∀ (reg : Registry) (h : Nat),
      sysStep reg (.supExit h) = (reg, [.cancelHolder h, .closeConn h]))
    ∧ (∀ (reg : Registry) (op : SysOp) (K : InstanceKey),
        K ∈ keysOf reg → K ∈ keysOf (sysStep reg op).1)
    ∧ (∀ (reg : Registry) (k K : InstanceKey) (h : Nat), K ≠ k →
        regGet (sysStep reg (.setup k h)).1 K = regGet reg K) := by
  refine ⟨fun reg h => rfl, ?_, ?_⟩
  · intro reg op K hK
    cases op with
    | supExit h => exact hK
    | setup k h =>
      show K ∈ keysOf (installHolder reg k h).1
      rw [installHolder_fst]
      exact mem_keysOf_regSet k h hK
  · intro reg k K h hne
    show regGet (installHolder reg k h).1 K = regGet reg K
    rw [installHolder_fst]
    exact regGet_regSet_ne h hne

/-- Witness for C9 at concrete registries. -/
theorem claim_C9_witness :
    (InstanceKey.mk "a" 1 ∈
      keysOf (sysStep [(InstanceKey.mk "a" 1, 3)]
        (.setup (InstanceKey.mk "b" 2) 4)).1)
    ∧ regGet (sysStep [(InstanceKey.mk "b" 2, 3)]
        (.setup (InstanceKey.mk "b" 2) 9)).1 (InstanceKey.mk "a" 1) =
      regGet [(InstanceKey.mk "b" 2, 3)] (InstanceKey.mk "a" 1) :=
  ⟨claim_C9_termination_frame.2.1 [(InstanceKey.mk "a" 1, 3)]
      (.setup (InstanceKey.mk "b" 2) 4) (InstanceKey.mk "a" 1) (by decide),
   claim_C9_termination_frame.2.2 [(InstanceKey.mk "b" 2, 3)]
      (InstanceKey.mk "b" 2) (InstanceKey.mk "a" 1) 9 (by decide)⟩

/-! ## The update forwarder `onUpdate` (lines 160–182) -/

/-- The `commonpb.TargetModule` fields used by the coordinator. -/
structure TargetModule where
  configName : String
  dataplaneInstance : Nat
deriving DecidableEq

/-- A parsed BIRD route as the callback sees it (`rib.Route` fields
used by `onUpdate`). -/
structure RibRoute where
  pfx : String
  toRemove : Bool
deriving DecidableEq

/-- Observable actions of `onUpdate` on the gRPC stream. -/
inductive UpEvent where
  | sendUpdate (configName : String) (dataplaneInstance : Nat)
      (isDelete : Bool) (pfx : String)
  | closeAndRecv
deriving DecidableEq

/-- The `onUpdate` loop body starting at loop index `i`.
`ctxDoneAt i` tells whether the `select` on `ctx.Done()` observes
cancellation at iteration `i`; `sendErrAt i` is the error (if any)
returned by `Send` at iteration `i`; `closeErr` is the error returned
by `CloseAndRecv` on the cancellation path.  Returns the trace of
stream operations and the callback's return value. -/
def onUpdateGo (target : TargetModule) (ctxDoneAt : Nat → Bool)
    (sendErrAt : Nat → Option GoError) (closeErr : Option GoError) :
    List RibRoute → Nat → List UpEvent × Option GoError
  | [], _ => ([], none)
  | r :: rs, i =>
    if ctxDoneAt i then
      ([.closeAndRecv],
       goJoin [some .canceled, closeErr, some .streamClosed])
    else
      match sendErrAt i with
      | some e =>
        ([.sendUpdate target.configName target.dataplaneInstance
            r.toRemove r.pfx],
         some (.wrapped ("send BIRD route update for " ++ r.pfx ++ " failed") e))
      | none =>
        ((.sendUpdate target.configName target.dataplaneInstance
            r.toRemove r.pfx) ::
           (onUpdateGo target ctxDoneAt sendErrAt closeErr rs (i + 1)).1,
         (onUpdateGo target ctxDoneAt sendErrAt closeErr rs (i + 1)).2)

/-- The `onUpdate` callback on a whole batch. -/
def onUpdate (target : TargetModule) (ctxDoneAt : Nat → Bool)
    (sendErrAt : Nat → Option GoError) (closeErr : Option GoError)
    (routes : List RibRoute) : List UpEvent × Option GoError :=
  onUpdateGo target ctxDoneAt sendErrAt closeErr routes 0

/-- The send event emitted for one route. -/
def sendEv (target : TargetModule) (r : RibRoute) : UpEvent :=
  .sendUpdate target.configName target.dataplaneInstance r.toRemove r.pfx

/-- If the first `j` iterations see no cancellation and no send error
and iteration `j` observes cancellation, `onUpdateGo` sends the first
`j` routes, closes the stream, and returns the joined error. -/
theorem onUpdateGo_cancel (target : TargetModule) (ctxDoneAt : Nat → Bool)
    (sendErrAt : Nat → Option GoError) (closeErr : Option GoError) :
    ∀ (j : Nat) (routes : List RibRoute) (i : Nat),
    j < routes.length →
    (∀ k, k < j → ctxDoneAt (i + k) = false) →
    ctxDoneAt (i + j) = true →
    (∀ k, k < j → sendErrAt (i + k) = none) →
    onUpdateGo target ctxDoneAt sendErrAt closeErr routes i =
      ((routes.take j).map (sendEv target) ++ [.closeAndRecv],
       goJoin [some .canceled, closeErr, some .streamClosed]) := by
  intro j
  induction j with
  | zero =>
    intro routes i hlen hbefore hdone _
    cases routes with
    | nil => simp at hlen
    | cons r rs =>
      rw [Nat.add_zero] at hdone
      simp [onUpdateGo, hdone]
  | succ j ih =>
    intro routes i hlen hbefore hdone hsend
    cases routes with
    | nil => simp at hlen
    | cons r rs =>
      have h0 : ctxDoneAt i = false := by
        have := hbefore 0 (Nat.succ_pos j)
        simpa using this
      have hs0 : sendErrAt i = none := by
        have := hsend 0 (Nat.succ_pos j)
        simpa using this
      have hb' : ∀ k, k < j → ctxDoneAt (i + 1 + k) = false := by
        intro k hk
        have heq : i + 1 + k = i + (k + 1) := by omega
        rw [heq]
        exact hbefore (k + 1) (Nat.succ_lt_succ hk)
      have hd' : ctxDoneAt (i + 1 + j) = true := by
        have heq : i + 1 + j = i + (j + 1) := by omega
        rw [heq]
        exact hdone
      have hs' : ∀ k, k < j → sendErrAt (i + 1 + k) = none := by
        intro k hk
        have heq : i + 1 + k = i + (k + 1) := by omega
        rw [heq]
        exact hsend (k + 1) (Nat.succ_lt_succ hk)
      have hlen' : j < rs.length := by
        simpa using Nat.lt_of_succ_lt_succ hlen
      have ihres := ih rs (i + 1) hlen' hb' hd' hs'
      simp [onUpdateGo, h0, hs0, ihres, sendEv]

/-- If the first `j` iterations see no cancellation and no send error,
iteration `j` sees no cancellation but `Send` fails with `e`, then
`onUpdateGo` attempted `j + 1` sends and returns the wrapped send
error. -/
theorem onUpdateGo_sendErr (target : TargetModule) (ctxDoneAt : Nat → Bool)
    (sendErrAt : Nat → Option GoError) (closeErr : Option GoError) :
    ∀ (j : Nat) (routes : List RibRoute) (i : Nat) (rj : RibRoute)
      (e : GoError),
    routes.get? j = some rj →
    (∀ k, k ≤ j → ctxDoneAt (i + k) = false) →
    (∀ k, k < j → sendErrAt (i + k) = none) →
    sendErrAt (i + j) = some e →
    onUpdateGo target ctxDoneAt sendErrAt closeErr routes i =
      ((routes.take (j + 1)).map (sendEv target),
       some (.wrapped ("send BIRD route update for " ++ rj.pfx ++ " failed") e)) := by
  intro j
  induction j with
  | zero =>
    intro routes i rj e hget hctx _ hfail
    cases routes with
    | nil => simp at hget
    | cons r rs =>
      have hr : r = rj := by simpa [List.get?] using hget
      subst hr
      have h0 : ctxDoneAt i = false := by simpa using hctx 0 (Nat.le_refl 0)
      rw [Nat.add_zero] at hfail
      simp [onUpdateGo, h0, hfail, sendEv]
  | succ j ih =>
    intro routes i rj e hget hctx hsend hfail
    cases routes with
    | nil => simp at hget
    | cons r rs =>
      have h0 : ctxDoneAt i = false := by
        simpa using hctx 0 (Nat.zero_le (j + 1))
      have hs0 : sendErrAt i = none := by
        simpa using hsend 0 (Nat.succ_pos j)
      have hget' : rs.get? j = some rj := by simpa [List.get?] using hget
      have hc' : ∀ k, k ≤ j → ctxDoneAt (i + 1 + k) = false := by
        intro k hk
        have heq : i + 1 + k = i + (k + 1) := by omega
        rw [heq]
        exact hctx (k + 1) (Nat.succ_le_succ hk)
      have hs' : ∀ k, k < j → sendErrAt (i + 1 + k) = none := by
        intro k hk
        have heq : i + 1 + k = i + (k + 1) := by omega
        rw [heq]
        exact hsend (k + 1) (Nat.succ_lt_succ hk)
      have hf' : sendErrAt (i + 1 + j) = some e := by
        have heq : i + 1 + j = i + (j + 1) := by omega
        rw [heq]
        exact hfail
      have ihres := ih rs (i + 1) rj e hget' hc' hs' hf'
      simp [onUpdateGo, h0, hs0, ihres, sendEv]

theorem goJoin_cancel_eval (closeErr : Option GoError) :
    goJoin [some .canceled, closeErr, some .streamClosed] =
      some (.joined (.canceled :: (closeErr.toList ++ [.streamClosed]))) := by
  cases closeErr <;> rfl

theorem errorsIs_joined_of_mem {es : List GoError} {x : GoError}
    (hx : x ∈ es) : errorsIs (.joined es) x = true := by
  rw [errorsIs, Bool.or_eq_true]
  exact Or.inr (errorsIsList_of_mem hx (errorsIs_self x))

/-- C3: in `onUpdate`, cancellation is checked before each send; when
the first observation of cancellation happens at route `j`, the first
`j` routes were sent, `CloseAndRecv` is attempted, no send is attempted
for route `j`, and the returned composite error contains the context
error, the close error, and the `errStreamClosed` sentinel (each
matched by `errors.Is`). -/
theorem claim_C3_cancellation_before_send :
    ∀ (target : TargetModule) (ctxDoneAt : Nat → Bool)
      (sendErrAt : Nat → Option GoError) (closeErr : Option GoError)
      (routes : List RibRoute) (j : Nat),
    j < routes.length →
    (∀ k, k < j → ctxDoneAt k = false) →
    ctxDoneAt j = true →
    (∀ k, k < j → sendErrAt k = none) →
    onUpdate target ctxDoneAt sendErrAt closeErr routes =
      ((routes.take j).map (sendEv target) ++ [.closeAndRecv],
       some (.joined (.canceled :: (closeErr.toList ++ [.streamClosed]))))
    ∧ ∀ e, (onUpdate target ctxDoneAt sendErrAt closeErr routes).2 = some e →
        errorsIs e .canceled = true ∧ errorsIs e .streamClosed = true ∧
        ∀ ce, closeErr = some ce → errorsIs e ce = true := by
  intro target ctxDoneAt sendErrAt closeErr routes j hlen hb hd hs
  have heq : onUpdate target ctxDoneAt sendErrAt closeErr routes =
      ((routes.take j).map (sendEv target) ++ [.closeAndRecv],
       some (.joined (.canceled :: (closeErr.toList ++ [.streamClosed])))) := by
    rw [onUpdate,
      onUpdateGo_cancel target ctxDoneAt sendErrAt closeErr j routes 0 hlen
        (fun k hk => by simpa using hb k hk) (by simpa using hd)
        (fun k hk => by simpa using hs k hk),
      goJoin_cancel_eval]
  refine ⟨heq, ?_⟩
  intro e he
  rw [heq] at he
  simp only [Option.some.injEq] at he
  subst he
  refine ⟨errorsIs_joined_of_mem (by simp), errorsIs_joined_of_mem (by simp),
    fun ce hce => errorsIs_joined_of_mem (by simp [hce])⟩

/-- Witness for C3: a two-route batch where cancellation is observed at
the second route, with a failing `CloseAndRecv`. -/
theorem claim_C3_witness :
    onUpdate (TargetModule.mk "cfg" 1) (fun n => decide (n = 1))
      (fun _ => none) (some (.sendFailed "close-rpc"))
      [RibRoute.mk "10.0.0.0/24" false, RibRoute.mk "192.168.0.0/16" true] =
      ([.sendUpdate "cfg" 1 false "10.0.0.0/24", .closeAndRecv],
       some (.joined [.canceled, .sendFailed "close-rpc", .streamClosed])) :=
  (claim_C3_cancellation_before_send (TargetModule.mk "cfg" 1)
    (fun n => decide (n = 1)) (fun _ => none) (some (.sendFailed "close-rpc"))
    [RibRoute.mk "10.0.0.0/24" false, RibRoute.mk "192.168.0.0/16" true] 1
    (by decide)
    (fun k hk => by
      have hk0 : k = 0 := by omega
      subst hk0
      rfl)
    rfl
    (fun k hk => rfl)).1

/-- Target and send error of the C6 scenario. -/
def c6Target : TargetModule := TargetModule.mk "cfg" 1

/-- The error returned by `Send` in the C6 scenario. -/
def c6SendErr : GoError := .sendFailed "eof"

/-- C6 counterexample: when `Send` fails, `onUpdate` does not return
the send error itself: it returns the send error wrapped by
`fmt.Errorf("send BIRD route update for %s failed: %w", ...)`, so the
returned value is not the value produced by `Send`. -/
theorem claim_C6_counterexample :
    (onUpdate c6Target (fun _ => false) (fun _ => some c6SendErr) none
      [RibRoute.mk "10.0.0.0/24" false]).2 ≠ some c6SendErr := by
  simp [onUpdate, onUpdateGo, c6Target, c6SendErr]

/-- C6 amended: when `Send` fails on route `j` (and no cancellation was
observed up to and including `j`), `onUpdate` returns the send error
wrapped via `%w` with a message naming the route prefix — so
`errors.Is` still matches the send error — and performs no retry: the
trace contains exactly the sends of routes `0..j` and processing
stops. -/
theorem claim_C6_send_error_wrapped :
    ∀ (target : TargetModule) (ctxDoneAt : Nat → Bool)
      (sendErrAt : Nat → Option GoError) (closeErr : Option GoError)
      (routes : List RibRoute) (j : Nat) (rj : RibRoute) (e : GoError),
    routes.get? j = some rj →
    (∀ k, k ≤ j → ctxDoneAt k = false) →
    (∀ k, k < j → sendErrAt k = none) →
    sendErrAt j = some e →
    onUpdate target ctxDoneAt sendErrAt closeErr routes =
      ((routes.take (j + 1)).map (sendEv target),
       some (.wrapped ("send BIRD route update for " ++ rj.pfx ++ " failed") e))
    ∧ errorsIs
        (.wrapped ("send BIRD route update for " ++ rj.pfx ++ " failed") e)
        e = true := by
  intro target c s ce routes j rj e hget hc hs hf
  constructor
  · rw [onUpdate]
    exact onUpdateGo_sendErr target c s ce j routes 0 rj e hget
      (fun k hk => by simpa using hc k hk)
      (fun k hk => by simpa using hs k hk)
      (by simpa using hf)
  · rw [errorsIs, Bool.or_eq_true]
    exact Or.inr (errorsIs_self e)

/-- Witness for C6 (amended) on a one-route batch. -/
theorem claim_C6_witness :
    onUpdate c6Target (fun _ => false) (fun _ => some c6SendErr) none
      [RibRoute.mk "10.0.0.0/24" false] =
      ([.sendUpdate "cfg" 1 false "10.0.0.0/24"],
       some (.wrapped ("send BIRD route update for " ++ "10.0.0.0/24" ++ " failed")
         c6SendErr)) :=
  (claim_C6_send_error_wrapped c6Target (fun _ => false)
    (fun _ => some c6SendErr) none [RibRoute.mk "10.0.0.0/24" false] 0
    (RibRoute.mk "10.0.0.0/24" false) c6SendErr rfl
    (fun k hk => rfl) (fun k hk => (Nat.not_lt_zero k hk).elim) rfl).1

/-- C10: on an empty batch `onUpdate` performs no stream operation and
returns `nil`, for every context state — in particular even when the
context is already cancelled, since the cancellation check only runs
inside the per-route loop. -/
theorem claim_C10_empty_batch (target : TargetModule) (ctxDoneAt : Nat → Bool)
    (sendErrAt : Nat → Option GoError) (closeErr : Option GoError) :
    onUpdate target ctxDoneAt sendErrAt closeErr [] = ([], none) := rfl

/-! ## The import supervisor `runBirdImportLoop` (lines 225–314) -/

/-- Outcome of the backoff sleep `select`: the per-import context
fires, the quit channel fires, or the backoff timer wakes the loop. -/
inductive SleepOutcome where
  | ctxDone
  | quit
  | wake
deriving DecidableEq

/-- What one supervisor iteration does after `export.Run` returns:
terminate cleanly, terminate (with a record of whether `CloseAndRecv`
was attempted first), or re-enter the loop (recording that the stream
was marked inactive and whether `CloseAndRecv` was attempted). -/
inductive IterResult where
  | termClean
  | term (closedStream : Bool)
  | retry (streamInactive : Bool) (closedStream : Bool)
deriving DecidableEq

/-- The error-handling tail of one `runBirdImportLoop` iteration
(lines 276–312), as a function of `export.Run`'s return value and of
which arm of the backoff `select` fires: `nil` → clean termination;
an error matching `context.Canceled` or `context.DeadlineExceeded` →
termination with no `CloseAndRecv`; any other error → mark the stream
inactive, attempt `CloseAndRecv` iff the error does not carry
`errStreamClosed`, then sleep — terminating if `ctx`/`quit` fires,
re-entering the loop otherwise. -/
def runBirdImportAfterRun (runErr : Option GoError) (sleep : SleepOutcome) :
    IterResult :=
  match runErr with
  | none => .termClean
  | some e =>
    if errorsIs e .canceled || errorsIs e .deadlineExceeded then
      .term false
    else
      match sleep with
      | .ctxDone => .term (!(errorsIs e .streamClosed))
      | .quit => .term (!(errorsIs e .streamClosed))
      | .wake => .retry true (!(errorsIs e .streamClosed))

/-- The S2 transition of §4.5 of the specification, written from the
spec's words for comparison with the code: `nil` → TERM-CLEAN; `is
Canceled` or `is DeadlineExceeded` → TERM; otherwise `stream_active :=
false`, `CloseAndRecv` unless the error carries the `stream-closed`
sentinel, then sleep for the next backoff, with the `ctx`/`quit` paths
terminating and the wake path re-entering the loop at S0. -/
def supervisorRunTransitionSpec (runErr : Option GoError)
    (sleep : SleepOutcome) : IterResult :=
  match runErr with
  | none => .termClean
  | some e =>
    if errorsIs e .canceled then .term false
    else if errorsIs e .deadlineExceeded then .term false
    else
      let closed := !(errorsIs e .streamClosed)
      if sleep = .wake then .retry true closed else .term closed

/-- C2: the supervisor's handling of each `export.Run` return value is
exactly the specified classification: `nil` terminates; errors matching
`context.Canceled`/`context.DeadlineExceeded` terminate without retry
and without touching the stream; any other error marks the stream
inactive, attempts `CloseAndRecv` iff the error does not carry the
`errStreamClosed` sentinel, then either terminates (if `ctx`/`quit`
fires during the backoff sleep) or re-enters the loop. -/
theorem claim_C2_run_error_classification
    (runErr : Option GoError) (sleep : SleepOutcome) :
    runBirdImportAfterRun runErr sleep =
      supervisorRunTransitionSpec runErr sleep := by
  cases runErr with
  | none => rfl
  | some e =>
    cases hc : errorsIs e .canceled with
    | true =>
      simp [runBirdImportAfterRun, supervisorRunTransitionSpec, hc]
    | false =>
      cases hd : errorsIs e .deadlineExceeded with
      | true =>
        simp [runBirdImportAfterRun, supervisorRunTransitionSpec, hc, hd]
      | false =>
        cases sleep <;>
          simp [runBirdImportAfterRun, supervisorRunTransitionSpec, hc, hd]

/-! ## The stream reconnector `reconnectStream` (lines 319–355) -/

/-- One arm of the reconnector's `select` becoming ready: the quit
channel, the per-import context, or a backoff-ticker tick whose
`FeedRIB(ctx)` call either fails or yields a new stream handle
(streams are identified by `Nat`). -/
inductive ReconnEvent where
  | quitFired
  | ctxFired
  | tick (result : Except GoError Nat)

/-- `reconnectStream`, driven by the sequence of `select` outcomes.
`slot` is the current content of the `currentStream` slot.  Returns
`none` while the event list is exhausted with the loop still running,
otherwise `some (returnValue, finalSlot)`: `false` leaves the slot
as-is, `true` writes the freshly opened stream into the slot. -/
def reconnectStream (slot : Nat) : List ReconnEvent → Option (Bool × Nat)
  | [] => none
  | .quitFired :: _ => some (false, slot)
  | .ctxFired :: _ => some (false, slot)
  | .tick (.error _) :: rest => reconnectStream slot rest
  | .tick (.ok s) :: _ => some (true, s)

/-- The first decisive `select` outcome: failed `FeedRIB` ticks only
reschedule, so they are skipped. -/
def firstDecisive : List ReconnEvent → Option ReconnEvent
  | [] => none
  | .tick (.error _) :: rest => firstDecisive rest
  | e :: _ => some e

/-- C8: the reconnector returns `true` exactly when a `FeedRIB` call
succeeds before `ctx`/`quit` fires, and then the slot holds the new
stream; it returns `false` exactly when the per-import context or the
quit signal fires first, and then the slot is unchanged. -/
theorem claim_C8_reconnect_characterisation
    (slot : Nat) (evs : List ReconnEvent) (b : Bool) (s : Nat) :
    reconnectStream slot evs = some (b, s) ↔
      ((b = true ∧ firstDecisive evs = some (.tick (.ok s))) ∨
       (b = false ∧ s = slot ∧
         (firstDecisive evs = some .quitFired ∨
          firstDecisive evs = some .ctxFired))) := by
  induction evs with
  | nil => simp [reconnectStream, firstDecisive]
  | cons e rest ih =>
    cases e with
    | quitFired =>
      simp only [reconnectStream, firstDecisive, Option.some.injEq,
        Prod.mk.injEq]
      constructor
      · rintro ⟨hb, hs⟩
        exact Or.inr ⟨hb.symm, hs.symm, Or.inl trivial⟩
      · rintro (⟨hb, hfd⟩ | ⟨hb, hs, _⟩)
        · exact absurd hfd (by simp)
        · exact ⟨hb.symm, hs.symm⟩
    | ctxFired =>
      simp only [reconnectStream, firstDecisive, Option.some.injEq,
        Prod.mk.injEq]
      constructor
      · rintro ⟨hb, hs⟩
        exact Or.inr ⟨hb.symm, hs.symm, Or.inr trivial⟩
      · rintro (⟨hb, hfd⟩ | ⟨hb, hs, _⟩)
        · exact absurd hfd (by simp)
        · exact ⟨hb.symm, hs.symm⟩
    | tick res =>
      cases res with
      | error ge =>
        simpa [reconnectStream, firstDecisive] using ih
      | ok s' =>
        simp only [reconnectStream, firstDecisive, Option.some.injEq,
          Prod.mk.injEq]
        constructor
        · rintro ⟨hb, hs⟩
          exact Or.inl ⟨hb.symm, by rw [hs]⟩
        · rintro (⟨hb, hfd⟩ | ⟨hb, hs, hbad⟩)
          · obtain rfl : s' = s := by simpa using hfd
            exact ⟨hb.symm, rfl⟩
          · rcases hbad with hbad | hbad <;> exact absurd hbad (by simp)

/-! ## The setup entrypoint `setupConfig` / `processBirdImport` setup
phase (lines 55–124 and 142–153) -/

/-- A static route of the configuration (`config.Routes` entries). -/
structure StaticRoute where
  pfx : String
  nexthop : String
deriving DecidableEq

/-- The parsed configuration fields used by `setupConfig`:
`config.Routes` and `config.BirdImport.Sockets`. -/
structure Config where
  routes : List StaticRoute
  birdSockets : List String
deriving DecidableEq

/-- Observable actions of the setup path: RPCs issued, the per-import
context cancellation, the connection close, the registry install, and
the supervisor spawn. -/
inductive SetupEvent where
  | insertRoute (pfx nexthop : String)
  | flushRoutes
  | feedRIBCall
  | cancelImportCtx
  | connClose
  | installHolderEv
  | spawnSupervisor
deriving DecidableEq

/-- Outcomes of the external RPCs made during setup: the `i`-th
`InsertRoute`, the `FlushRoutes`, and the initial `FeedRIB`. -/
structure SetupOracle where
  insertErr : Nat → Option GoError
  flushErr : Option GoError
  feedRIBErr : Option GoError

/-- The static-route insert loop of `setupConfig` (lines 100–110);
aborts on the first failing `InsertRoute`. -/
def insertLoop (o : SetupOracle) :
    List StaticRoute → Nat → List SetupEvent × Option GoError
  | [], _ => ([], none)
  | r :: rs, i =>
    match o.insertErr i with
    | some e =>
      ([.insertRoute r.pfx r.nexthop],
       some (.wrapped "failed to insert static route" e))
    | none =>
      ((.insertRoute r.pfx r.nexthop) :: (insertLoop o rs (i + 1)).1,
       (insertLoop o rs (i + 1)).2)

/-- The setup phase of `processBirdImport` (lines 142–153): open the
initial `FeedRIB` stream; on failure cancel the freshly created
per-import context and return the wrapped error — the connection is not
touched; on success install the holder (the atomic registry critical
section, modelled in detail by `installHolder`) and spawn the
supervisor. -/
def processBirdImportSetup (o : SetupOracle) :
    List SetupEvent × Option GoError :=
  match o.feedRIBErr with
  | some e =>
    ([.feedRIBCall, .cancelImportCtx],
     some (.wrapped "failed to setup initial BIRD import stream" e))
  | none => ([.feedRIBCall, .installHolderEv, .spawnSupervisor], none)

/-- `setupConfig` (lines 79–124): insert static routes in order, flush
once, then either close the connection and return (no BIRD sockets) or
hand the connection to `processBirdImport`. -/
def setupConfigRun (o : SetupOracle) (cfg : Config) :
    List SetupEvent × Option GoError :=
  match insertLoop o cfg.routes 0 with
  | (evs, some e) => (evs, some e)
  | (evs, none) =>
    match o.flushErr with
    | some e =>
      (evs ++ [.flushRoutes],
       some (.wrapped "failed to flush static routes" e))
    | none =>
      if cfg.birdSockets.isEmpty then
        (evs ++ [.flushRoutes, .connClose], none)
      else
        match o.feedRIBErr with
        | some e =>
          (evs ++ [.flushRoutes, .feedRIBCall, .cancelImportCtx],
           some (.wrapped "failed to setup initial BIRD import stream" e))
        | none =>
          (evs ++ [.flushRoutes, .feedRIBCall, .installHolderEv,
            .spawnSupervisor], none)

/-- gRPC status codes returned by `SetupConfig`. -/
inductive GrpcCode where
  | ok
  | invalidArgument
  | internal
deriving DecidableEq

/-- The `SetupConfig` handler's translation of `setupConfig` failures
(line 72–74): any error is surfaced as `codes.Internal`. -/
def setupConfigGrpc (o : SetupOracle) (cfg : Config) : GrpcCode :=
  match (setupConfigRun o cfg).2 with
  | some _ => .internal
  | none => .ok

/-- Count of occurrences of one setup event in a trace. -/
def countSetup (x : SetupEvent) : List SetupEvent → Nat
  | [] => 0
  | e :: rest => (if e = x then 1 else 0) + countSetup x rest

theorem countSetup_append (x : SetupEvent) (a b : List SetupEvent) :
    countSetup x (a ++ b) = countSetup x a + countSetup x b := by
  induction a with
  | nil => simp [countSetup]
  | cons e as ih => simp [countSetup, ih, Nat.add_assoc]

theorem countSetup_not_mem {x : SetupEvent} {l : List SetupEvent}
    (h : x ∉ l) : countSetup x l = 0 := by
  induction l with
  | nil => rfl
  | cons e rest ih =>
    rw [List.mem_cons, not_or] at h
    rw [countSetup, if_neg (fun hh => h.1 hh.symm), ih h.2]

theorem insertLoop_success (o : SetupOracle)
    (hins : ∀ n, o.insertErr n = none) :
    ∀ (routes : List StaticRoute) (i : Nat),
    insertLoop o routes i =
      (routes.map (fun r => .insertRoute r.pfx r.nexthop), none) := by
  intro routes
  induction routes with
  | nil => intro i; rfl
  | cons r rs ih => intro i; simp [insertLoop, hins i, ih (i + 1)]

theorem notMem_insert_map (ev : SetupEvent)
    (hev : ∀ p n, ev ≠ .insertRoute p n) (routes : List StaticRoute) :
    ev ∉ routes.map (fun r => SetupEvent.insertRoute r.pfx r.nexthop) := by
  simp only [List.mem_map]
  rintro ⟨r, _, hr⟩
  exact hev r.pfx r.nexthop hr.symm

theorem take_flush_head (maps rest : List SetupEvent) :
    (maps ++ (SetupEvent.flushRoutes :: rest)).take (maps.length + 1) =
      maps ++ [.flushRoutes] := by
  rw [List.take_append_eq_append_take, List.take_of_length_le (by omega)]
  congr 1
  have h1 : maps.length + 1 - maps.length = 1 := by omega
  rw [h1, List.take_succ_cons, List.take_zero]

theorem countSetup_flush_shape (maps rest : List SetupEvent)
    (hm : SetupEvent.flushRoutes ∉ maps)
    (hr : SetupEvent.flushRoutes ∉ rest) :
    countSetup .flushRoutes (maps ++ (SetupEvent.flushRoutes :: rest)) = 1 := by
  rw [countSetup_append, countSetup_not_mem hm, countSetup, if_pos rfl,
    countSetup_not_mem hr]

/-- C7: under successful RPCs, setup issues one `InsertRoute` per
static route in configuration order followed by exactly one
`FlushRoutes`; and with no BIRD sockets configured it then closes the
gateway connection and returns success, installing no holder and
spawning no supervisor. -/
theorem claim_C7_setup_prelude :
    ∀ (o : SetupOracle) (cfg : Config),
    (∀ n, o.insertErr n = none) →
    o.flushErr = none →
    ((setupConfigRun o cfg).1.take (cfg.routes.length + 1) =
        cfg.routes.map (fun r => .insertRoute r.pfx r.nexthop) ++
          [.flushRoutes])
    ∧ countSetup .flushRoutes (setupConfigRun o cfg).1 = 1
    ∧ (cfg.birdSockets = [] →
        setupConfigRun o cfg =
          (cfg.routes.map (fun r => .insertRoute r.pfx r.nexthop) ++
            [.flushRoutes, .connClose], none)
        ∧ SetupEvent.installHolderEv ∉ (setupConfigRun o cfg).1
        ∧ SetupEvent.spawnSupervisor ∉ (setupConfigRun o cfg).1) := by
  intro o cfg hins hflush
  have hmaps := insertLoop_success o hins cfg.routes 0
  have hlen : (cfg.routes.map
      (fun r => SetupEvent.insertRoute r.pfx r.nexthop)).length =
      cfg.routes.length := by simp
  have hmnf : SetupEvent.flushRoutes ∉
      cfg.routes.map (fun r => SetupEvent.insertRoute r.pfx r.nexthop) :=
    notMem_insert_map _ (fun p n => by simp) cfg.routes
  have hmni : SetupEvent.installHolderEv ∉
      cfg.routes.map (fun r => SetupEvent.insertRoute r.pfx r.nexthop) :=
    notMem_insert_map _ (fun p n => by simp) cfg.routes
  have hmns : SetupEvent.spawnSupervisor ∉
      cfg.routes.map (fun r => SetupEvent.insertRoute r.pfx r.nexthop) :=
    notMem_insert_map _ (fun p n => by simp) cfg.routes
  cases hsock : cfg.birdSockets with
  | nil =>
    have hev : setupConfigRun o cfg =
        (cfg.routes.map (fun r => SetupEvent.insertRoute r.pfx r.nexthop) ++
          (SetupEvent.flushRoutes :: [.connClose]), none) := by
      simp [setupConfigRun, hmaps, hflush, hsock]
    refine ⟨?_, ?_, fun _ => ⟨hev, ?_, ?_⟩⟩
    · rw [hev]
      have ht := take_flush_head
        (cfg.routes.map (fun r => SetupEvent.insertRoute r.pfx r.nexthop))
        [.connClose]
      rwa [hlen] at ht
    · rw [hev]
      exact countSetup_flush_shape _ _ hmnf (by simp)
    · rw [hev]
      simp only [List.mem_append]
      rintro (h | h)
      · exact hmni h
      · simp at h
    · rw [hev]
      simp only [List.mem_append]
      rintro (h | h)
      · exact hmns h
      · simp at h
  | cons s0 ss =>
    have hne : ¬ cfg.birdSockets.isEmpty := by simp [hsock]
    cases hfeed : o.feedRIBErr with
    | some e =>
      have hev : setupConfigRun o cfg =
          (cfg.routes.map (fun r => SetupEvent.insertRoute r.pfx r.nexthop) ++
            (SetupEvent.flushRoutes :: [.feedRIBCall, .cancelImportCtx]),
           some (.wrapped "failed to setup initial BIRD import stream" e)) := by
        simp [setupConfigRun, hmaps, hflush, hne, hfeed]
      refine ⟨?_, ?_, fun hempty => ?_⟩
      · rw [hev]
        have ht := take_flush_head
          (cfg.routes.map (fun r => SetupEvent.insertRoute r.pfx r.nexthop))
          [.feedRIBCall, .cancelImportCtx]
        rwa [hlen] at ht
      · rw [hev]
        exact countSetup_flush_shape _ _ hmnf (by simp)
      · exact (List.cons_ne_nil s0 ss hempty).elim
    | none =>
      have hev : setupConfigRun o cfg =
          (cfg.routes.map (fun r => SetupEvent.insertRoute r.pfx r.nexthop) ++
            (SetupEvent.flushRoutes ::
              [.feedRIBCall, .installHolderEv, .spawnSupervisor]), none) := by
        simp [setupConfigRun, hmaps, hflush, hne, hfeed]
      refine ⟨?_, ?_, fun hempty => ?_⟩
      · rw [hev]
        have ht := take_flush_head
          (cfg.routes.map (fun r => SetupEvent.insertRoute r.pfx r.nexthop))
          [.feedRIBCall, .installHolderEv, .spawnSupervisor]
        rwa [hlen] at ht
      · rw [hev]
        exact countSetup_flush_shape _ _ hmnf (by simp)
      · exact (List.cons_ne_nil s0 ss hempty).elim

/-- Oracle with all RPCs succeeding (C7 witness scenario). -/
def c7Oracle : SetupOracle :=
  SetupOracle.mk (fun _ => none) none none

/-- A static-only configuration (C7 witness scenario, spec §8
scenario 1). -/
def c7Config : Config :=
  Config.mk [StaticRoute.mk "10.0.0.0/24" "192.0.2.1"] []

/-- Witness for C7 on the static-only scenario. -/
theorem claim_C7_witness :
    (setupConfigRun c7Oracle c7Config).1.take (c7Config.routes.length + 1) =
      c7Config.routes.map (fun r => .insertRoute r.pfx r.nexthop) ++
        [.flushRoutes] :=
  (claim_C7_setup_prelude c7Oracle c7Config (fun n => rfl) rfl).1

/-- Oracle whose initial `FeedRIB` fails (C4 scenario). -/
def c4Oracle : SetupOracle :=
  SetupOracle.mk (fun _ => none) none (some (.sendFailed "dial refused"))

/-- A configuration with one BIRD socket and no static routes (C4
scenario). -/
def c4Config : Config := Config.mk [] ["/run/bird/bird.ctl"]

/-- C4 counterexample: when the initial `FeedRIB` fails, the error is
surfaced as `INTERNAL` — but the gRPC connection is *not* closed (only
the per-import context is cancelled; `processBirdImport` returns
without touching `conn`, and neither `setupConfig` nor `SetupConfig`
closes it on the error path), refuting the "connection closed" part of
the claim. -/
theorem claim_C4_counterexample :
    c4Oracle.feedRIBErr = some (.sendFailed "dial refused")
    ∧ setupConfigGrpc c4Oracle c4Config = .internal
    ∧ SetupEvent.connClose ∉ (setupConfigRun c4Oracle c4Config).1 := by
  refine ⟨rfl, rfl, ?_⟩
  decide

/-- C4 amended: when the initial `FeedRIB` stream open fails during
setup, the error is surfaced to the `SetupConfig` caller as `INTERNAL`,
no holder is installed, no supervisor is spawned, and the per-import
context is cancelled — but the gRPC connection is not closed on this
path. -/
theorem claim_C4_stream_open_failure :
    ∀ (o : SetupOracle) (cfg : Config) (e : GoError),
    (∀ n, o.insertErr n = none) →
    o.flushErr = none →
    cfg.birdSockets ≠ [] →
    o.feedRIBErr = some e →
    setupConfigGrpc o cfg = .internal
    ∧ SetupEvent.installHolderEv ∉ (setupConfigRun o cfg).1
    ∧ SetupEvent.spawnSupervisor ∉ (setupConfigRun o cfg).1
    ∧ SetupEvent.cancelImportCtx ∈ (setupConfigRun o cfg).1
    ∧ SetupEvent.connClose ∉ (setupConfigRun o cfg).1 := by
  intro o cfg e hins hflush hne hfeed
  have hmaps := insertLoop_success o hins cfg.routes 0
  have hne' : ¬ cfg.birdSockets.isEmpty := by
    cases hsock : cfg.birdSockets with
    | nil => exact (hne hsock).elim
    | cons s0 ss => simp
  have hev : setupConfigRun o cfg =
      (cfg.routes.map (fun r => SetupEvent.insertRoute r.pfx r.nexthop) ++
        (SetupEvent.flushRoutes :: [.feedRIBCall, .cancelImportCtx]),
       some (.wrapped "failed to setup initial BIRD import stream" e)) := by
    simp [setupConfigRun, hmaps, hflush, hne', hfeed]
  have hmni : SetupEvent.installHolderEv ∉
      cfg.routes.map (fun r => SetupEvent.insertRoute r.pfx r.nexthop) :=
    notMem_insert_map _ (fun p n => by simp) cfg.routes
  have hmns : SetupEvent.spawnSupervisor ∉
      cfg.routes.map (fun r => SetupEvent.insertRoute r.pfx r.nexthop) :=
    notMem_insert_map _ (fun p n => by simp) cfg.routes
  have hmnc : SetupEvent.connClose ∉
      cfg.routes.map (fun r => SetupEvent.insertRoute r.pfx r.nexthop) :=
    notMem_insert_map _ (fun p n => by simp) cfg.routes
  refine ⟨?_, ?_, ?_, ?_, ?_⟩
  · rw [setupConfigGrpc, hev]
  · rw [hev]
    simp only [List.mem_append]
    rintro (h | h)
    · exact hmni h
    · simp at h
  · rw [hev]
    simp only [List.mem_append]
    rintro (h | h)
    · exact hmns h
    · simp at h
  · rw [hev]
    simp
  · rw [hev]
    simp only [List.mem_append]
    rintro (h | h)
    · exact hmnc h
    · simp at h

/-- Witness for C4 (amended) on the concrete failing-stream scenario. -/
theorem claim_C4_witness :
    setupConfigGrpc c4Oracle c4Config = .internal
    ∧ SetupEvent.installHolderEv ∉ (setupConfigRun c4Oracle c4Config).1
    ∧ SetupEvent.spawnSupervisor ∉ (setupConfigRun c4Oracle c4Config).1
    ∧ SetupEvent.cancelImportCtx ∈ (setupConfigRun c4Oracle c4Config).1
    ∧ SetupEvent.connClose ∉ (setupConfigRun c4Oracle c4Config).1 :=
  claim_C4_stream_open_failure c4Oracle c4Config (.sendFailed "dial refused")
    (fun n => rfl) rfl (by simp [c4Config]) rfl
